import Mathlib

/-!
Verification of the freehand drawing surface and image-capture pipeline of the
ai-math-notes application (the `Canvas` component and the `handleSolve` / `handleClear`
orchestration in `App.tsx`).

The embedding models the component state machine directly from the source:

* `CanvasState` holds the React refs and state hooks of the `Canvas` component:
  `canvasRef.current` (as `canvas : Option CanvasData`), `contextRef.current`
  (as `hasCtx : Bool`; `getContext` on an attached canvas succeeds in a browser),
  `isDrawing` and `isDirty`.
* The live raster bitmap is modelled as the list of stroked segments painted since the
  last clear or resize; a pixel is inked exactly when it lies within distance 2
  (lineWidth 4, round cap and join) of one of those segments.
* Each event handler of the source (`startDrawing`, `draw`, `stopDrawing`,
  `clearCanvas`, the `ResizeObserver` callback, the mount effect) becomes a total
  function `CanvasState → CanvasState`; `getImageData` becomes a query returning
  the result together with the (unchanged) state.
-/

namespace MathNotes

/-- A point with integer coordinates (viewport or surface-local CSS pixels). -/
structure Pt where
  x : Int
  y : Int
deriving DecidableEq, Repr

/-- A straight stroke segment in surface-local coordinates, as produced by one
`lineTo` + `stroke` step (or by `closePath`). -/
structure Seg where
  a : Pt
  b : Pt
deriving DecidableEq, Repr

/-- Rasterization of one stroked segment with `lineWidth = 4` and round cap/join:
the point lies within distance 2 of the closed segment (squared-distance test,
entirely in integer arithmetic). -/
def onSeg (s : Seg) (p : Pt) : Bool :=
  let dx := s.b.x - s.a.x
  let dy := s.b.y - s.a.y
  let ax := p.x - s.a.x
  let ay := p.y - s.a.y
  let dot := ax * dx + ay * dy
  let len2 := dx * dx + dy * dy
  if dot ≤ 0 then ax * ax + ay * ay ≤ 4
  else if len2 ≤ dot then
    let bx := p.x - s.b.x
    let by2 := p.y - s.b.y
    bx * bx + by2 * by2 ≤ 4
  else (ax * ax + ay * ay) * len2 - dot * dot ≤ 4 * len2

/-- A pixel of the live raster is inked when some painted segment covers it. -/
def coversB (segs : List Seg) (p : Pt) : Bool :=
  segs.any (fun s => onSeg s p)

/-- Opaque pixel colors of the composited snapshot: the white background fill or
the stroke color (gray-800 or gray-200 depending on presentation mode). -/
inductive Color where
  | white
  | ink
deriving DecidableEq, Repr

/-- The current default path of the 2D context: the segments accumulated by
`lineTo` since the last `beginPath`, the current point, and the subpath start
(used by `closePath`). -/
structure PathSt where
  segs : List Seg
  cur : Option Pt
  start : Option Pt
deriving DecidableEq, Repr

/-- The empty default path (state after `beginPath`, or of a fresh context). -/
def emptyPath : PathSt := ⟨[], none, none⟩

/-- The attached `<canvas>` element: its bitmap dimensions, the origin of its
bounding client rect, the painted raster content, and the context's current
default path. -/
structure CanvasData where
  width : Nat
  height : Nat
  rectLeft : Int
  rectTop : Int
  raster : List Seg
  path : PathSt
deriving DecidableEq, Repr

/-- The live raster pixel at (x, y): `some Color.ink` where a stroke was painted,
`none` (transparent) elsewhere — the canvas bitmap starts fully transparent and
`clearRect` restores transparency. -/
def CanvasData.livePixel (cv : CanvasData) (x y : Int) : Option Color :=
  if coversB cv.raster ⟨x, y⟩ then some Color.ink else none

/-- The state of the `Canvas` component: `canvasRef.current`, `contextRef.current`
(present or not), and the `isDrawing` / `isDirty` React state. -/
structure CanvasState where
  canvas : Option CanvasData
  hasCtx : Bool
  isDrawing : Bool
  isDirty : Bool
deriving DecidableEq, Repr

/-- State before the component mounts: no canvas element, no context, not drawing,
no ink. -/
def initState : CanvasState := ⟨none, false, false, false⟩

/-- An input contact: a mouse event (clientX, clientY) or a touch event carrying
its list of contact points. Browsers deliver at least one touch on
touchstart/touchmove; the code reads `event.touches[0]`. -/
inductive Contact where
  | mouse (p : Pt)
  | touch (touches : List Pt)
deriving DecidableEq, Repr

/-- Source `getCoords`: maps viewport coordinates to surface-local coordinates by
subtracting the bounding-rect origin; returns (0, 0) when the canvas ref is empty.
For a touch event only the first contact point is used (an empty touch list does
not occur on touchstart/touchmove; it is mapped to (0, 0) to keep the function
total). -/
def getCoords (s : CanvasState) (c : Contact) : Pt :=
  match s.canvas with
  | none => ⟨0, 0⟩
  | some cv =>
    match c with
    | .mouse p => ⟨p.x - cv.rectLeft, p.y - cv.rectTop⟩
    | .touch ts =>
      match ts with
      | [] => ⟨0, 0⟩
      | t :: _ => ⟨t.x - cv.rectLeft, t.y - cv.rectTop⟩

/-- Source `startDrawing`: returns if the context is missing; otherwise
`beginPath()` (reset the default path), `moveTo(x, y)`, `setIsDrawing(true)`,
and `setIsDirty(true)` if not already dirty. -/
def startDrawing (s : CanvasState) (c : Contact) : CanvasState :=
  if s.hasCtx then
    match s.canvas with
    | none => s
    | some cv =>
      let p := getCoords s c
      { s with
        canvas := some { cv with path := ⟨[], some p, some p⟩ },
        isDrawing := true,
        isDirty := true }
  else s

/-- Source `draw`: returns unless `isDrawing` and the context is present; otherwise
`lineTo(x, y)` (extend the path; with no current point `lineTo` starts a subpath)
and `stroke()` (paint every segment of the current path onto the raster). -/
def draw (s : CanvasState) (c : Contact) : CanvasState :=
  if s.isDrawing && s.hasCtx then
    match s.canvas with
    | none => s
    | some cv =>
      let p := getCoords s c
      let path1 :=
        match cv.path.cur with
        | none => { cv.path with cur := some p, start := some p }
        | some q => { cv.path with segs := cv.path.segs ++ [⟨q, p⟩], cur := some p }
      { s with canvas := some { cv with path := path1, raster := cv.raster ++ path1.segs } }
  else s

/-- Source `stopDrawing`: `closePath()` when the context is present (connect the
current point back to the subpath start; nothing is stroked afterwards), then
`setIsDrawing(false)`. Shared by mouseup, mouseleave and touchend. -/
def stopDrawing (s : CanvasState) : CanvasState :=
  let s1 :=
    if s.hasCtx then
      match s.canvas with
      | none => s
      | some cv =>
        match cv.path.cur, cv.path.start with
        | some q, some st =>
          let segs1 := if q = st then cv.path.segs else cv.path.segs ++ [⟨q, st⟩]
          { s with canvas := some { cv with path := ⟨segs1, some st, some st⟩ } }
        | _, _ => s
    else s
  { s1 with isDrawing := false }

/-- Source `clearCanvas` (ref handle): when both canvas and context are present,
`clearRect(0, 0, width, height)` over the whole bitmap (raster fully transparent)
and `setIsDirty(false)`; otherwise a silent no-op. The default path is not reset. -/
def clearCanvas (s : CanvasState) : CanvasState :=
  match s.canvas with
  | none => s
  | some cv =>
    if s.hasCtx then
      { s with canvas := some { cv with raster := [] }, isDirty := false }
    else s

/-- Source `ResizeObserver` callback: set `canvas.width` / `canvas.height` to the
container content box — which clears the bitmap and resets the context state,
including the default path — then `setupContext()` (re-acquire the context and
re-apply the stroke style). Note that `isDirty` is not touched. -/
def resizeCanvas (s : CanvasState) (w h : Nat) : CanvasState :=
  match s.canvas with
  | none => s
  | some cv =>
    { s with
      canvas := some { cv with width := w, height := h, raster := [], path := emptyPath },
      hasCtx := true }

/-- Attachment of the canvas element plus the mount effect's `setupContext()`:
the element starts with the default 300 × 150 bitmap (the first resize
observation then sets the real dimensions) at the given bounding-rect origin.
A no-op when already mounted (the effect runs once). -/
def mountCanvas (s : CanvasState) (rl rt : Int) : CanvasState :=
  match s.canvas with
  | some _ => s
  | none =>
    { s with canvas := some ⟨300, 150, rl, rt, [], emptyPath⟩, hasCtx := true }

/-- The snapshot produced by `getImageData`: a losslessly encoded (PNG) image of
the given dimensions whose pixels are the live raster composited over an opaque
white fill. Only the stroke content need be stored; pixels are derived. -/
structure EncodedImage where
  width : Nat
  height : Nat
  content : List Seg
deriving DecidableEq, Repr

/-- Pixel (x, y) of the snapshot: stroke color where the live raster was painted,
the white background fill elsewhere — `drawImage` composites the transparent
raster over the white `fillRect`. Every pixel is opaque. -/
def EncodedImage.pixelAt (img : EncodedImage) (x y : Int) : Color :=
  if coversB img.content ⟨x, y⟩ then Color.ink else Color.white

/-- Source `getImageData` (ref handle), as a query returning the result together
with the resulting component state: returns `none` when the canvas ref is empty or
`isDirty` is false; otherwise creates a temporary canvas of identical dimensions,
fills it opaque white, draws the live canvas on top unscaled at (0, 0), and
encodes it as a PNG data URL. The live canvas, `isDirty` and `isDrawing` are only
read, never written. -/
def getImageDataOp (s : CanvasState) : Option EncodedImage × CanvasState :=
  match s.canvas with
  | none => (none, s)
  | some cv =>
    if s.isDirty then
      (some ⟨cv.width, cv.height, cv.raster⟩, s)
    else (none, s)

/-- The value returned to the caller of `getImageData`. -/
def getImageData (s : CanvasState) : Option EncodedImage :=
  (getImageDataOp s).1

/-- The external events the component reacts to: mount, resize observations,
the canvas element's mouse and touch handlers, and the `clearCanvas` command. -/
inductive Ev where
  | mount (rl rt : Int)
  | resize (w h : Nat)
  | mouseDown (p : Pt)
  | mouseMove (p : Pt)
  | mouseUp
  | mouseLeave
  | touchStart (ts : List Pt)
  | touchMove (ts : List Pt)
  | touchEnd
  | clear
deriving DecidableEq, Repr

/-- Event dispatch, exactly as wired on the `<canvas>` element: mousedown and
touchstart invoke `startDrawing`, mousemove and touchmove invoke `draw`, and
mouseup, mouseleave and touchend all invoke `stopDrawing`. -/
def step (s : CanvasState) : Ev → CanvasState
  | .mount rl rt => mountCanvas s rl rt
  | .resize w h => resizeCanvas s w h
  | .mouseDown p => startDrawing s (.mouse p)
  | .mouseMove p => draw s (.mouse p)
  | .mouseUp => stopDrawing s
  | .mouseLeave => stopDrawing s
  | .touchStart ts => startDrawing s (.touch ts)
  | .touchMove ts => draw s (.touch ts)
  | .touchEnd => stopDrawing s
  | .clear => clearCanvas s

/-- The state after a sequence of events from the unmounted initial state. -/
def run (evs : List Ev) : CanvasState :=
  evs.foldl step initState

/-- A state the component can actually be in. -/
def Reachable (s : CanvasState) : Prop :=
  ∃ evs, run evs = s

/-- Events that begin a stroke (`startDrawing`). -/
def isBegin : Ev → Bool
  | .mouseDown _ => true
  | .touchStart _ => true
  | _ => false

/-- The clear command. -/
def isClear : Ev → Bool
  | .clear => true
  | _ => false

/-- At least one stroke has begun since the most recent clear command. -/
def inkSinceLastClear (evs : List Ev) : Bool :=
  (evs.reverse.takeWhile (fun e => !isClear e)).any isBegin

/-- Left-to-right effect of an event sequence on the `isDirty` flag, assuming the
context stays available: a begin sets it, a clear resets it, everything else
preserves it. -/
def specDirty (d : Bool) : List Ev → Bool
  | [] => d
  | e :: evs => specDirty (if isClear e then false else (isBegin e || d)) evs

/-- Example run: a mounted surface after its initial layout pass. -/
def exMounted : List Ev := [Ev.mount 0 0, Ev.resize 300 150]

/-- Example run: one stroke drawn on the mounted surface. -/
def exInked : List Ev :=
  exMounted ++ [Ev.mouseDown ⟨10, 10⟩, Ev.mouseMove ⟨20, 20⟩, Ev.mouseUp]

/-- Example run: one stroke, then a container resize. -/
def exInkedResized : List Ev := exInked ++ [Ev.resize 400 200]

/-- The canvas element data of the `exInked` state: one painted segment, and a
closed default path. -/
def exInkedData : CanvasData :=
  ⟨300, 150, 0, 0, [⟨⟨10, 10⟩, ⟨20, 20⟩⟩],
   ⟨[⟨⟨10, 10⟩, ⟨20, 20⟩⟩, ⟨⟨20, 20⟩, ⟨10, 10⟩⟩], some ⟨10, 10⟩, some ⟨10, 10⟩⟩⟩

/-- The solver input mode selected in `App`. -/
inductive InputMode where
  | handwriting
  | textual
deriving DecidableEq, Repr

/-- What the solver receives when it is invoked. -/
inductive SolverPayload where
  | image (img : EncodedImage)
  | plainText (t : String)
deriving DecidableEq, Repr

/-- The observable outcome of one `handleSolve` call: a silent early return
(canvas ref empty), a user-facing error banner without calling the solver, or an
invocation of the external solver. -/
inductive SolveOutcome where
  | aborted
  | canvasEmptyError (msg : String)
  | textEmptyError (msg : String)
  | solverCalled (payload : SolverPayload)
deriving DecidableEq, Repr

/-- Source `handleSolve` in `App.tsx`, up to the solver call: in handwriting mode
it returns silently when the canvas ref is empty, sets an error and stops when
`getImageData()` returns null, and otherwise calls `solveMathProblem` with the
image; in text mode it sets an error when the trimmed text is empty and otherwise
calls `solveMathProblemFromText`. -/
def handleSolve (mode : InputMode) (canvasRef : Option CanvasState)
    (textProblem : String) : SolveOutcome :=
  match mode with
  | .handwriting =>
    match canvasRef with
    | none => .aborted
    | some s =>
      match getImageData s with
      | none => .canvasEmptyError "The canvas is empty. Please write a math problem."
      | some img => .solverCalled (.image img)
  | .textual =>
    if textProblem.trim = "" then
      .textEmptyError "The text input is empty. Please type a math problem."
    else .solverCalled (.plainText textProblem)

/-- The structural invariant of every reachable component state: the context ref
is populated exactly when the canvas ref is (mount and every resize acquire the
context of the attached element), and `isDrawing` and `isDirty` can only have
been set while a context was present. -/
def Inv (s : CanvasState) : Prop :=
  s.hasCtx = s.canvas.isSome ∧
  (s.isDrawing = true → s.hasCtx = true) ∧
  (s.isDirty = true → s.hasCtx = true)

lemma inv_initState : Inv initState := by
  refine ⟨rfl, ?_, ?_⟩ <;> intro h <;> simp [initState] at h

lemma inv_step (s : CanvasState) (h : Inv s) (e : Ev) : Inv (step s e) := by
  obtain ⟨h1, h2, h3⟩ := h
  rcases s with ⟨cv, ctx, dr, di⟩
  cases e <;> cases cv <;> cases ctx <;> cases dr <;> cases di <;>
      simp_all [Inv, step, mountCanvas, resizeCanvas, startDrawing, draw,
        stopDrawing, clearCanvas, emptyPath] <;>
    (repeat' split) <;> simp_all

lemma inv_run (evs : List Ev) : Inv (run evs) := by
  induction evs using List.reverseRecOn with
  | nil => exact inv_initState
  | append_singleton evs e ih =>
    have : run (evs ++ [e]) = step (run evs) e := by
      simp [run, List.foldl_append]
    rw [this]
    exact inv_step _ ih e

lemma reachable_inv (s : CanvasState) (h : Reachable s) : Inv s := by
  obtain ⟨evs, rfl⟩ := h
  exact inv_run evs

lemma run_append (evs : List Ev) (e : Ev) : run (evs ++ [e]) = step (run evs) e := by
  simp [run, List.foldl_append]

lemma noBegin_step_dirty (s : CanvasState) (e : Ev) (he : isBegin e = false)
    (hd : s.isDirty = false) : (step s e).isDirty = false := by
  rcases s with ⟨cv, ctx, dr, di⟩
  cases e <;> cases cv <;>
      simp_all [isBegin, step, mountCanvas, resizeCanvas, draw, stopDrawing,
        clearCanvas] <;>
    (repeat' split) <;> simp_all

lemma noBegin_run_dirty (evs : List Ev) (h : evs.any isBegin = false) :
    (run evs).isDirty = false := by
  induction evs using List.reverseRecOn with
  | nil => rfl
  | append_singleton evs e ih =>
    rw [List.any_append] at h
    simp only [Bool.or_eq_false_iff] at h
    rw [run_append]
    refine noBegin_step_dirty _ _ ?_ (ih h.1)
    have := h.2
    simpa using this

lemma specDirty_append (evs : List Ev) (e : Ev) : ∀ d,
    specDirty d (evs ++ [e]) =
      if isClear e then false else (isBegin e || specDirty d evs) := by
  induction evs with
  | nil => intro d; rfl
  | cons x evs ih => intro d; exact ih _

lemma inkSinceLastClear_append (evs : List Ev) (e : Ev) :
    inkSinceLastClear (evs ++ [e]) =
      if isClear e then false else (isBegin e || inkSinceLastClear evs) := by
  unfold inkSinceLastClear
  rw [List.reverse_append]
  cases hc : isClear e <;>
    simp [List.takeWhile_cons, hc]

lemma specDirty_false_eq_ink (evs : List Ev) :
    specDirty false evs = inkSinceLastClear evs := by
  induction evs using List.reverseRecOn with
  | nil => rfl
  | append_singleton evs e ih =>
    rw [specDirty_append, inkSinceLastClear_append, ih]

lemma step_dirty_char (s : CanvasState) (e : Ev) (h1 : s.hasCtx = true)
    (h2 : s.canvas.isSome = true) :
    (step s e).hasCtx = true ∧ (step s e).canvas.isSome = true ∧
      (step s e).isDirty = (if isClear e then false else (isBegin e || s.isDirty)) := by
  rcases s with ⟨cv, ctx, dr, di⟩
  cases cv with
  | none => simp at h2
  | some c =>
    cases e <;>
        simp_all [step, mountCanvas, resizeCanvas, startDrawing, draw, stopDrawing,
          clearCanvas, isClear, isBegin] <;>
      (repeat' split) <;> simp_all

lemma dirty_run_aux (evs : List Ev) : ∀ s : CanvasState, s.hasCtx = true →
    s.canvas.isSome = true →
    (evs.foldl step s).hasCtx = true ∧ (evs.foldl step s).canvas.isSome = true ∧
      (evs.foldl step s).isDirty = specDirty s.isDirty evs := by
  induction evs with
  | nil => intro s h1 h2; exact ⟨h1, h2, rfl⟩
  | cons e evs ih =>
    intro s h1 h2
    obtain ⟨a, b, c⟩ := step_dirty_char s e h1 h2
    obtain ⟨a2, b2, c2⟩ := ih (step s e) a b
    rw [List.foldl_cons]
    refine ⟨a2, b2, ?_⟩
    rw [c2, c]
    rfl

/-- C1: in every state in which `isDirty` is false — in particular after any event
sequence containing no begin event, i.e. before any ink is drawn — `getImageData`
returns `none` (no content), not an error and not an image. -/
theorem C1_export_without_ink :
    (∀ s : CanvasState, s.isDirty = false → getImageData s = none) ∧
    (∀ evs : List Ev, evs.any isBegin = false → getImageData (run evs) = none) := by
  have base : ∀ s : CanvasState, s.isDirty = false → getImageData s = none := by
    intro s h
    rcases s with ⟨cv, ctx, dr, di⟩
    cases cv <;> simp_all [getImageData, getImageDataOp]
  exact ⟨base, fun evs h => base _ (noBegin_run_dirty evs h)⟩

/-- C1 witness: at the unmounted initial state and after a bare mount, the export
returns no content. -/
theorem C1_export_without_ink_witness :
    getImageData initState = none ∧ getImageData (run [Ev.mount 0 0]) = none :=
  ⟨C1_export_without_ink.1 initState rfl, C1_export_without_ink.2 [Ev.mount 0 0] rfl⟩

/-- C5: whenever `getImageData` returns no content, `handleSolve` in handwriting
mode sets the user-facing canvas-empty error and does not invoke the external
solver. -/
theorem C5_empty_export_blocks_solver (s : CanvasState) (t : String)
    (h : getImageData s = none) :
    handleSolve InputMode.handwriting (some s) t =
      SolveOutcome.canvasEmptyError "The canvas is empty. Please write a math problem." ∧
    ∀ p, handleSolve InputMode.handwriting (some s) t ≠ SolveOutcome.solverCalled p := by
  refine ⟨by simp [handleSolve, h], ?_⟩
  intro p
  simp [handleSolve, h]

/-- C5 witness: solving on a freshly created, never-drawn canvas state reports the
canvas-empty error and never reaches the solver. -/
theorem C5_empty_export_blocks_solver_witness :
    handleSolve InputMode.handwriting (some initState) "" =
      SolveOutcome.canvasEmptyError "The canvas is empty. Please write a math problem." ∧
    handleSolve InputMode.handwriting (some initState) "" ≠
      SolveOutcome.solverCalled (SolverPayload.plainText "x") :=
  ⟨(C5_empty_export_blocks_solver initState "" rfl).1,
   (C5_empty_export_blocks_solver initState "" rfl).2 _⟩

/-- C6: a begin event at viewport point P on a surface whose bounding-rect origin
is O records the start point (and current point) at (P.x − O.x, P.y − O.y), both
for mouse events and for touch events, of which only the first contact point is
used. -/
theorem C6_coordinate_mapping (s : CanvasState) (cv : CanvasData)
    (hcv : s.canvas = some cv) (hctx : s.hasCtx = true)
    (px py : Int) (t : Pt) (ts : List Pt) :
    getCoords s (Contact.mouse ⟨px, py⟩) = ⟨px - cv.rectLeft, py - cv.rectTop⟩ ∧
    getCoords s (Contact.touch (t :: ts)) = ⟨t.x - cv.rectLeft, t.y - cv.rectTop⟩ ∧
    (∃ cv1, (startDrawing s (Contact.mouse ⟨px, py⟩)).canvas = some cv1 ∧
      cv1.path.start = some ⟨px - cv.rectLeft, py - cv.rectTop⟩ ∧
      cv1.path.cur = some ⟨px - cv.rectLeft, py - cv.rectTop⟩) ∧
    (∃ cv2, (startDrawing s (Contact.touch (t :: ts))).canvas = some cv2 ∧
      cv2.path.start = some ⟨t.x - cv.rectLeft, t.y - cv.rectTop⟩ ∧
      cv2.path.cur = some ⟨t.x - cv.rectLeft, t.y - cv.rectTop⟩) := by
  refine ⟨by simp [getCoords, hcv], by simp [getCoords, hcv], ?_, ?_⟩
  · refine ⟨{ cv with path := ⟨[], some ⟨px - cv.rectLeft, py - cv.rectTop⟩,
      some ⟨px - cv.rectLeft, py - cv.rectTop⟩⟩ }, ?_, rfl, rfl⟩
    simp [startDrawing, getCoords, hcv, hctx]
  · refine ⟨{ cv with path := ⟨[], some ⟨t.x - cv.rectLeft, t.y - cv.rectTop⟩,
      some ⟨t.x - cv.rectLeft, t.y - cv.rectTop⟩⟩ }, ?_, rfl, rfl⟩
    simp [startDrawing, getCoords, hcv, hctx]

/-- C6 witness: on the mounted example surface with bounding-rect origin (0, 0), a
mouse begin at (50, 60) and a two-finger touch begin whose first contact is
(70, 80) record start points (50, 60) and (70, 80). -/
theorem C6_coordinate_mapping_witness :
    getCoords (run exMounted) (Contact.mouse ⟨50, 60⟩) = ⟨50 - 0, 60 - 0⟩ ∧
    getCoords (run exMounted) (Contact.touch [⟨70, 80⟩, ⟨1, 2⟩]) = ⟨70 - 0, 80 - 0⟩ ∧
    (∃ cv1, (startDrawing (run exMounted) (Contact.mouse ⟨50, 60⟩)).canvas = some cv1 ∧
      cv1.path.start = some ⟨50 - 0, 60 - 0⟩ ∧ cv1.path.cur = some ⟨50 - 0, 60 - 0⟩) ∧
    (∃ cv2, (startDrawing (run exMounted) (Contact.touch [⟨70, 80⟩, ⟨1, 2⟩])).canvas =
        some cv2 ∧
      cv2.path.start = some ⟨70 - 0, 80 - 0⟩ ∧ cv2.path.cur = some ⟨70 - 0, 80 - 0⟩) :=
  C6_coordinate_mapping (run exMounted) ⟨300, 150, 0, 0, [], emptyPath⟩ rfl rfl
    50 60 ⟨70, 80⟩ [⟨1, 2⟩]

/-- C7: `getImageData` never mutates the component: the resulting state is the
input state (so `isDirty`, `isDrawing` and the live raster are unchanged), and an
immediately repeated call returns the same result. -/
theorem C7_export_is_pure_read (s : CanvasState) :
    (getImageDataOp s).2 = s ∧
    (getImageDataOp s).2.isDirty = s.isDirty ∧
    (getImageDataOp s).2.isDrawing = s.isDrawing ∧
    (getImageDataOp s).2.canvas = s.canvas ∧
    (getImageDataOp ((getImageDataOp s).2)).1 = (getImageDataOp s).1 := by
  rcases s with ⟨cv, ctx, dr, di⟩
  cases cv <;> cases di <;> simp [getImageDataOp]

/-- C8: a mouseleave event dispatches to exactly the same handler transition as a
mouseup (and touchend), so leaving the surface terminates the stroke exactly as an
explicit release would: drawing-active becomes false and later move events paint
nothing. -/
theorem C8_leave_equals_release (s : CanvasState) (c : Contact) :
    step s Ev.mouseLeave = step s Ev.mouseUp ∧
    step s Ev.mouseLeave = step s Ev.touchEnd ∧
    (stopDrawing s).isDrawing = false ∧
    draw (stopDrawing s) c = stopDrawing s := by
  have h : (stopDrawing s).isDrawing = false := rfl
  refine ⟨rfl, rfl, h, ?_⟩
  simp [draw, h]

/-- C9: the clear, begin, move and end operations are total functions, and on
every reachable state whose rendering context is missing (before the component is
attached) each of them silently leaves the state unchanged. -/
theorem C9_missing_ctx_silent_noop (s : CanvasState) (h : Reachable s)
    (hc : s.hasCtx = false) :
    (∀ c, startDrawing s c = s) ∧ (∀ c, draw s c = s) ∧
    stopDrawing s = s ∧ clearCanvas s = s := by
  obtain ⟨h1, h2, h3⟩ := reachable_inv s h
  have hdr : s.isDrawing = false := by
    cases hdr2 : s.isDrawing
    · rfl
    · rw [h2 hdr2] at hc; cases hc
  refine ⟨fun c => by simp [startDrawing, hc], fun c => by simp [draw, hc], ?_, ?_⟩
  · rcases s with ⟨cv, ctx, dr, di⟩
    simp_all [stopDrawing]
  · rcases s with ⟨cv, ctx, dr, di⟩
    cases cv <;> simp_all [clearCanvas]

/-- C9 witness: on the initial (unattached) state, a begin at (5, 5), a move, an
end and a clear are all exact no-ops. -/
theorem C9_missing_ctx_silent_noop_witness :
    startDrawing initState (Contact.mouse ⟨5, 5⟩) = initState ∧
    draw initState (Contact.mouse ⟨6, 6⟩) = initState ∧
    stopDrawing initState = initState ∧ clearCanvas initState = initState :=
  ⟨(C9_missing_ctx_silent_noop initState ⟨[], rfl⟩ rfl).1 _,
   (C9_missing_ctx_silent_noop initState ⟨[], rfl⟩ rfl).2.1 _,
   (C9_missing_ctx_silent_noop initState ⟨[], rfl⟩ rfl).2.2.1,
   (C9_missing_ctx_silent_noop initState ⟨[], rfl⟩ rfl).2.2.2⟩

/-- C2: in every reachable state with ink present, `getImageData` returns a
non-null encoded image whose pixel dimensions equal the live surface's current
dimensions, every pixel at which the live raster is transparent is opaque white,
and every pixel of the snapshot is opaque (white or stroke colored) — the
transparent background never leaks into the export. -/
theorem C2_export_with_ink (s : CanvasState) (h : Reachable s)
    (hd : s.isDirty = true) :
    ∃ cv img, s.canvas = some cv ∧ getImageData s = some img ∧
      img.width = cv.width ∧ img.height = cv.height ∧
      (∀ x y, cv.livePixel x y = none → img.pixelAt x y = Color.white) ∧
      (∀ x y, img.pixelAt x y = Color.white ∨ img.pixelAt x y = Color.ink) := by
  obtain ⟨h1, h2, h3⟩ := reachable_inv s h
  have hsome : s.canvas.isSome = true := by rw [← h1]; exact h3 hd
  obtain ⟨cv, hcv⟩ := Option.isSome_iff_exists.mp hsome
  refine ⟨cv, ⟨cv.width, cv.height, cv.raster⟩, hcv, ?_, rfl, rfl, ?_, ?_⟩
  · simp [getImageData, getImageDataOp, hcv, hd]
  · intro x y hxy
    cases hb : coversB cv.raster ⟨x, y⟩ with
    | false => simp [EncodedImage.pixelAt, hb]
    | true => rw [CanvasData.livePixel, hb] at hxy; simp at hxy
  · intro x y
    cases hb : coversB cv.raster ⟨x, y⟩ <;> simp [EncodedImage.pixelAt, hb]

/-- C2 witness: the example run with one stroke exports a non-null 300 × 150
image that is white wherever the live raster is transparent. -/
theorem C2_export_with_ink_witness :
    Reachable (run exInked) ∧ (run exInked).isDirty = true ∧
    (∃ cv img, (run exInked).canvas = some cv ∧ getImageData (run exInked) = some img ∧
      img.width = cv.width ∧ img.height = cv.height ∧
      (∀ x y, cv.livePixel x y = none → img.pixelAt x y = Color.white) ∧
      (∀ x y, img.pixelAt x y = Color.white ∨ img.pixelAt x y = Color.ink)) :=
  ⟨⟨exInked, rfl⟩, rfl, C2_export_with_ink (run exInked) ⟨exInked, rfl⟩ rfl⟩

/-- C4: from every reachable state, the clear command leaves a state whose export
reports no content and whose ink flag is false; it is idempotent; and when the
canvas is attached it erases the whole raster to full transparency. -/
theorem C4_clear_then_export (s : CanvasState) (h : Reachable s) :
    getImageData (clearCanvas s) = none ∧
    (clearCanvas s).isDirty = false ∧
    clearCanvas (clearCanvas s) = clearCanvas s ∧
    (∀ cv, s.canvas = some cv → ∃ cv1, (clearCanvas s).canvas = some cv1 ∧
      cv1.raster = [] ∧ ∀ x y, cv1.livePixel x y = none) := by
  obtain ⟨h1, h2, h3⟩ := reachable_inv s h
  rcases s with ⟨cv, ctx, dr, di⟩
  cases cv with
  | none =>
    simp only [Option.isSome_none] at h1
    have hdi : di = false := by
      cases hdi2 : di
      · rfl
      · exact absurd (h3 (by simpa using hdi2)) (by simp [h1])
    subst h1 hdi
    refine ⟨?_, rfl, rfl, ?_⟩
    · simp [clearCanvas, getImageData, getImageDataOp]
    · intro cv hcv; cases hcv
  | some c =>
    simp only [Option.isSome_some] at h1
    subst h1
    refine ⟨?_, ?_, ?_, ?_⟩
    · simp [clearCanvas, getImageData, getImageDataOp]
    · simp [clearCanvas]
    · simp [clearCanvas]
    · intro cv hcv
      refine ⟨{ c with raster := [] }, by simp [clearCanvas], rfl, ?_⟩
      intro x y
      simp [CanvasData.livePixel, coversB]

/-- C4 witness: clearing the inked example state yields a no-content export, a
false ink flag, an idempotent second clear, and a fully transparent raster. -/
theorem C4_clear_then_export_witness :
    getImageData (clearCanvas (run exInked)) = none ∧
    (clearCanvas (run exInked)).isDirty = false ∧
    clearCanvas (clearCanvas (run exInked)) = clearCanvas (run exInked) ∧
    (∃ cv1, (clearCanvas (run exInked)).canvas = some cv1 ∧ cv1.raster = [] ∧
      ∀ x y, cv1.livePixel x y = none) :=
  ⟨(C4_clear_then_export (run exInked) ⟨exInked, rfl⟩).1,
   (C4_clear_then_export (run exInked) ⟨exInked, rfl⟩).2.1,
   (C4_clear_then_export (run exInked) ⟨exInked, rfl⟩).2.2.1,
   (C4_clear_then_export (run exInked) ⟨exInked, rfl⟩).2.2.2 exInkedData rfl⟩

/-- C10: from any attached state with an empty raster, a begin immediately
followed by an end (a single tap, no move) sets the ink flag even though nothing
is painted, so the subsequent export returns a non-null, entirely white image
rather than no content. -/
theorem C10_tap_exports_blank_image (s : CanvasState) (cv : CanvasData)
    (c : Contact) (hcv : s.canvas = some cv) (hctx : s.hasCtx = true)
    (hr : cv.raster = []) :
    (stopDrawing (startDrawing s c)).isDirty = true ∧
    ∃ img, getImageData (stopDrawing (startDrawing s c)) = some img ∧
      img.width = cv.width ∧ img.height = cv.height ∧
      ∀ x y, img.pixelAt x y = Color.white := by
  have hstart : startDrawing s c =
      { s with
        canvas := some { cv with path := ⟨[], some (getCoords s c), some (getCoords s c)⟩ },
        isDrawing := true, isDirty := true } := by
    simp [startDrawing, hcv, hctx]
  have hstop : stopDrawing (startDrawing s c) =
      { s with
        canvas := some { cv with path := ⟨[], some (getCoords s c), some (getCoords s c)⟩ },
        isDrawing := false, isDirty := true } := by
    rw [hstart]; simp [stopDrawing, hctx]
  rw [hstop]
  refine ⟨rfl, ⟨cv.width, cv.height, cv.raster⟩, ?_, rfl, rfl, ?_⟩
  · simp [getImageData, getImageDataOp]
  · intro x y
    simp [EncodedImage.pixelAt, hr, coversB]

/-- C10 witness: a tap at (50, 50) on the freshly mounted surface leaves a dirty
state whose export is a non-null all-white 300 × 150 image. -/
theorem C10_tap_exports_blank_image_witness :
    (stopDrawing (startDrawing (run exMounted) (Contact.mouse ⟨50, 50⟩))).isDirty = true ∧
    ∃ img,
      getImageData (stopDrawing (startDrawing (run exMounted) (Contact.mouse ⟨50, 50⟩))) =
        some img ∧
      img.width = 300 ∧ img.height = 150 ∧ ∀ x y, img.pixelAt x y = Color.white :=
  C10_tap_exports_blank_image (run exMounted) ⟨300, 150, 0, 0, [], emptyPath⟩
    (Contact.mouse ⟨50, 50⟩) rfl rfl rfl

/-- C3 counterexample: after one stroke followed by a resize and no further
drawing, the ink flag is still true and the export returns a non-null image, so
the claim that a resize discards ink-present and that the subsequent export
returns no content fails on the code. -/
theorem C3_resize_counterexample :
    (run exInkedResized).isDirty = true ∧
    getImageData (run exInkedResized) ≠ none := by
  refine ⟨rfl, ?_⟩
  decide

/-- C3 amended: `isDirty` is true iff at least one stroke has begun since the last
clear — a resize does not reset it, although it does clear the raster; hence
draw → resize → export before drawing again returns a non-null, entirely white
blank image of the new dimensions rather than no content. -/
theorem C3_ink_iff_begin_since_clear (rl rt : Int) (evs : List Ev)
    (s : CanvasState) (cv : CanvasData) (w h : Nat)
    (hcv : s.canvas = some cv) (hd : s.isDirty = true) :
    ((run (Ev.mount rl rt :: evs)).isDirty = inkSinceLastClear evs) ∧
    (resizeCanvas s w h).isDirty = true ∧
    (∃ img, getImageData (resizeCanvas s w h) = some img ∧
      img.width = w ∧ img.height = h ∧ ∀ x y, img.pixelAt x y = Color.white) := by
  refine ⟨?_, ?_, ?_⟩
  · have hm : run (Ev.mount rl rt :: evs) =
        evs.foldl step (step initState (Ev.mount rl rt)) := rfl
    rw [hm]
    have := dirty_run_aux evs (step initState (Ev.mount rl rt)) rfl rfl
    rw [this.2.2]
    exact specDirty_false_eq_ink evs
  · simp [resizeCanvas, hcv, hd]
  · refine ⟨⟨w, h, []⟩, ?_, rfl, rfl, ?_⟩
    · simp [resizeCanvas, hcv, getImageData, getImageDataOp, hd]
    · intro x y
      simp [EncodedImage.pixelAt, coversB]

/-- C3 amended witness: on the inked example, the mounted-trace characterization
of the ink flag holds, and a resize to 400 × 200 keeps the flag and exports a
blank white 400 × 200 image. -/
theorem C3_ink_iff_begin_since_clear_witness :
    ((run (Ev.mount 0 0 :: [Ev.resize 300 150, Ev.mouseDown ⟨10, 10⟩,
        Ev.mouseMove ⟨20, 20⟩, Ev.mouseUp])).isDirty =
      inkSinceLastClear [Ev.resize 300 150, Ev.mouseDown ⟨10, 10⟩,
        Ev.mouseMove ⟨20, 20⟩, Ev.mouseUp]) ∧
    (resizeCanvas (run exInked) 400 200).isDirty = true ∧
    (∃ img, getImageData (resizeCanvas (run exInked) 400 200) = some img ∧
      img.width = 400 ∧ img.height = 200 ∧ ∀ x y, img.pixelAt x y = Color.white) :=
  C3_ink_iff_begin_since_clear 0 0
    [Ev.resize 300 150, Ev.mouseDown ⟨10, 10⟩, Ev.mouseMove ⟨20, 20⟩, Ev.mouseUp]
    (run exInked) exInkedData 400 200 (by decide) rfl

end MathNotes
